import Mathlib

/-!
Verification of the conversion core of the Scout writing tool
(src/src-tauri/src/lib.rs) against its natural-language specification.

The document model is a shallow embedding of serde_json values; each Rust
function relevant to the claims is translated into a Lean definition of the
same name.  Filesystem contents, the current date/time and the external
Markdown parse-event source are passed in as explicit parameters.
-/

set_option maxRecDepth 8000

/-- Embedding of serde_json::Value.  Numbers are modelled as integers (the
claims never exercise fractional values); objects are ordered association
lists whose keys, as produced by the json macro in the source, are unique. -/
inductive Json where
  | null : Json
  | bool (b : Bool) : Json
  | num (n : Int) : Json
  | str (s : String) : Json
  | arr (elems : List Json) : Json
  | obj (fields : List (String × Json)) : Json

/-- Key lookup in an object's field list (serde_json map lookup). -/
def lookupField : List (String × Json) → String → Option Json
  | [], _ => none
  | (k, v) :: rest, key => if k = key then some v else lookupField rest key

/-- Embedding of Value::get with a string key: a lookup on objects, None on
every other variant. -/
def Json.getF : Json → String → Option Json
  | .obj fields, key => lookupField fields key
  | _, _ => none

/-- Embedding of Value::as_str. -/
def Json.asStr : Json → Option String
  | .str s => some s
  | _ => none

/-- Embedding of Value::as_array. -/
def Json.asArr : Json → Option (List Json)
  | .arr xs => some xs
  | _ => none

/-- Embedding of Value::as_u64: defined on non-negative integer numbers. -/
def Json.asU64 : Json → Option Nat
  | .num n => if n < 0 then none else some n.toNat
  | _ => none

/-- Shorthand for get + as_str. -/
def Json.getStr (j : Json) (key : String) : Option String := (j.getF key).bind Json.asStr

/-- Shorthand for get + as_array. -/
def Json.getArr (j : Json) (key : String) : Option (List Json) := (j.getF key).bind Json.asArr

/-- Shorthand for get + as_u64. -/
def Json.getU64 (j : Json) (key : String) : Option Nat := (j.getF key).bind Json.asU64

/-- Whitespace predicate used by the embeddings of Rust str::trim; the ASCII
whitespace of Char.isWhitespace covers every input the code receives. -/
def wsChar (c : Char) : Bool := c.isWhitespace

/-- Embedding of Rust str::trim: drop whitespace from both ends. -/
def rustTrim (s : String) : String :=
  String.mk (((s.data.dropWhile wsChar).reverse.dropWhile wsChar).reverse)

/-- Embedding of Rust str::to_lowercase, character by character (no input of
this program exercises a multi-character lowercasing). -/
def rustToLower (s : String) : String := String.mk (s.data.map Char.toLower)

/-- Embedding of Rust str::replace with a one-character pattern. -/
def replaceChar (c : Char) (r : String) (s : String) : String :=
  String.mk (s.data.foldr (fun x acc => if x = c then r.data ++ acc else x :: acc) [])

/-- Structural worker for splitting on a non-empty separator, as Rust
str::split does (leftmost, non-overlapping matches): skip counts separator
characters still to be consumed after a match, acc holds the reversed
current piece. -/
def splitSepAux (sep : List Char) : List Char → Nat → List Char → List (List Char)
  | [], _, acc => [acc.reverse]
  | _ :: rest, skip + 1, acc => splitSepAux sep rest skip acc
  | c :: rest, 0, acc =>
    if sep.isPrefixOf (c :: rest) then
      acc.reverse :: splitSepAux sep rest (sep.length - 1) []
    else
      splitSepAux sep rest 0 (c :: acc)

/-- Embedding of Rust str::split with a string pattern. -/
def rustSplit (s : String) (sep : String) : List String :=
  (splitSepAux sep.data s.data 0 []).map String.mk

/-- Embedding of Rust str::lines: split on newline, drop the piece after a
final newline, strip one carriage return from each line's end. -/
def rustLines (s : String) : List String :=
  let parts := splitSepAux ['\n'] s.data 0 []
  let parts := if parts.getLast? = some [] then parts.dropLast else parts
  parts.map (fun l => String.mk (if l.getLast? = some '\r' then l.dropLast else l))

/-- Decimal digit characters. -/
def decDigitChar : Nat → Char
  | 0 => '0' | 1 => '1' | 2 => '2' | 3 => '3' | 4 => '4'
  | 5 => '5' | 6 => '6' | 7 => '7' | 8 => '8' | _ => '9'

/-- Value of a decimal digit character (inverse of decDigitChar). -/
def decDigitVal : Char → Nat
  | '1' => 1 | '2' => 2 | '3' => 3 | '4' => 4 | '5' => 5
  | '6' => 6 | '7' => 7 | '8' => 8 | '9' => 9 | _ => 0

/-- Little-endian decimal digits of a positive number; the fuel argument
only drives structural recursion and any fuel at least n suffices. -/
def natDecAux : Nat → Nat → List Char
  | 0, _ => []
  | fuel + 1, n => if n = 0 then [] else decDigitChar (n % 10) :: natDecAux fuel (n / 10)

/-- Embedding of Rust integer Display formatting: standard decimal. -/
def natDec (n : Nat) : String :=
  if n = 0 then "0" else String.mk ((natDecAux n n).reverse)

/-- Numeric value of a little-endian digit-character list. -/
def decValue : List Char → Nat
  | [] => 0
  | c :: rest => decDigitVal c + 10 * decValue rest

/-- Zero-padding to width three, as the Rust format specifier 03 does. -/
def pad3 (n : Nat) : String :=
  let s := natDec n
  if s.length < 3 then String.mk (List.replicate (3 - s.length) '0') ++ s else s

/-- Rust format of a chapter title, "Chapter N" (lib.rs several places). -/
def chapterN (n : Nat) : String := "Chapter " ++ natDec n

/-!  Tree-to-RTF renderer (lib.rs lines 300-385). -/

/-- Level attribute of a heading node:
node.get("attrs").and_then(get "level").and_then(as_u64). -/
def headingLevelAttr (node : Json) : Option Nat :=
  ((node.getF "attrs").bind (fun a => a.getF "level")).bind Json.asU64

/-- Concatenation of the text fields of inline items, as the heading and
blockquote arms of the RTF renderer read them (marks are never consulted). -/
def plainTextItems (items : List Json) : String :=
  items.foldl (fun acc item =>
    match item.getStr "text" with
    | some t => acc ++ t
    | none => acc) ""

/-- One inline run inside the RTF paragraph arm (lib.rs lines 311-336):
bold/italic control words from the run's marks, the run's text, and the
unconditional per-run reset. -/
def rtf_paragraph_item (item : Json) : String :=
  (match item.getArr "marks" with
   | some marks =>
     let is_bold := marks.any (fun m => decide (m.getStr "type" = some "bold"))
     let is_italic := marks.any (fun m => decide (m.getStr "type" = some "italic"))
     (if is_bold then "\\b " else "") ++ (if is_italic then "\\i " else "")
   | none => "") ++
  (match item.getStr "text" with
   | some t => t
   | none => "") ++
  "\\b0\\i0 "

/-- RTF emitted for one top-level block node (the body of the loop of
json_to_rtf_content, lib.rs lines 305-379); nodes without a string type
and unhandled types emit nothing. -/
def rtf_node (node : Json) : String :=
  match node.getStr "type" with
  | some "paragraph" =>
    "\x7b\\pard " ++
    (match node.getArr "content" with
     | some items => String.join (items.map rtf_paragraph_item)
     | none => "") ++
    "\\par\x7d\n"
  | some "heading" =>
    (match headingLevelAttr node with
     | some level =>
       let font_size : Nat :=
         match level with
         | 2 => 32
         | 3 => 28
         | 4 => 24
         | _ => 20
       "\x7b\\pard \\fs" ++ natDec font_size ++ " \\b "
     | none => "\x7b\\pard \\fs28 \\b ") ++
    (match node.getArr "content" with
     | some items => plainTextItems items
     | none => "") ++
    "\\b0\\par\x7d\n"
  | some "blockquote" =>
    "\x7b\\pard \\li720 " ++
    (match node.getArr "content" with
     | some items =>
       String.join (items.map (fun item =>
         match item.getArr "content" with
         | some cs => plainTextItems cs
         | none => ""))
     | none => "") ++
    "\\par\x7d\n"
  | _ => ""

/-- Embedding of json_to_rtf_content (lib.rs lines 300-385): the RTF body
for a chapter's TipTap document. -/
def json_to_rtf_content (content : Option Json) : String :=
  match content with
  | some doc =>
    (match doc.getArr "content" with
     | some nodes => String.join (nodes.map rtf_node)
     | none => "")
  | none => ""

/-! Chapter splitter (lib.rs lines 762-820). -/

/-- Embedding of str::starts_with. -/
def rustStartsWith (s p : String) : Bool := p.data.isPrefixOf s.data

/-- Title chosen for the section a delimiter line opens (lib.rs lines
786-795); num is the chapter counter after saving the previous section. -/
def sectionTitle (delimiter line : String) (extract_titles : Bool) (num : Nat) : String :=
  if extract_titles then
    let after_delim := rustTrim (String.mk (line.data.drop delimiter.data.length))
    if after_delim ≠ "" then after_delim else chapterN num
  else chapterN num

/-- Loop of split_by_delimiter (lib.rs lines 774-804) together with the
final save of the open section (lines 807-812): the sections pushed from
the given state on.  The Nat, Option String and List String arguments
mirror the mutable chapter_num, current_title and current_content. -/
def goSplit (delimiter : String) (extract_titles : Bool) :
    List String → Nat → Option String → List String → List (String × String)
  | [], _, none, _ => []
  | [], _, some t, curContent =>
    let content_str := rustTrim (String.intercalate "\n" curContent)
    if content_str ≠ "" ∨ ¬extract_titles then [(t, content_str)] else []
  | line :: rest, chapterNum, curTitle, curContent =>
    if rustStartsWith line delimiter then
      match curTitle with
      | some t =>
        let content_str := rustTrim (String.intercalate "\n" curContent)
        if content_str ≠ "" ∨ ¬extract_titles then
          (t, content_str) ::
            goSplit delimiter extract_titles rest (chapterNum + 1)
              (some (sectionTitle delimiter line extract_titles (chapterNum + 1))) []
        else
          goSplit delimiter extract_titles rest chapterNum
            (some (sectionTitle delimiter line extract_titles chapterNum)) []
      | none =>
        goSplit delimiter extract_titles rest chapterNum
          (some (sectionTitle delimiter line extract_titles chapterNum)) []
    else
      match curTitle with
      | some t =>
        goSplit delimiter extract_titles rest chapterNum (some t) (curContent ++ [line])
      | none => goSplit delimiter extract_titles rest chapterNum none curContent

/-- Main pass of split_by_delimiter: everything before the empty-result
fallback. -/
def splitSections (content delimiter : String) (extract_titles : Bool) :
    List (String × String) :=
  goSplit delimiter extract_titles (rustLines content) 1 none []

/-- Embedding of split_by_delimiter (lib.rs lines 763-820). -/
def split_by_delimiter (content delimiter : String) (extract_titles : Bool) :
    List (String × String) :=
  let sections := splitSections content delimiter extract_titles
  if sections = [] then [(chapterN 1, content)] else sections

/-! Title deduplicator (lib.rs lines 824-836).  The Rust loop searches for
the first n at or above 1 whose candidate is free; its embedding uses
Nat.find, and the lemmas below establish that a free index always exists
(the candidate strings are pairwise distinct while the used set is
finite), which is exactly why the Rust loop terminates. -/

/-- Candidate title with a numeric suffix (lib.rs line 830). -/
def candidateTitle (title : String) (n : Nat) : String :=
  title ++ " (" ++ natDec n ++ ")"

theorem stringDataEq : ∀ {a b : String}, a.data = b.data → a = b := by
  intro a b h
  cases a
  cases b
  cases h
  rfl

theorem dataAppend (a b : String) : (a ++ b).data = a.data ++ b.data := by
  cases a
  cases b
  rfl

theorem decDigitVal_decDigitChar {d : Nat} (h : d < 10) :
    decDigitVal (decDigitChar d) = d := by
  interval_cases d <;> rfl

theorem decValue_natDecAux : ∀ (fuel n : Nat), n ≤ fuel →
    decValue (natDecAux fuel n) = n := by
  intro fuel
  induction fuel with
  | zero =>
    intro n h
    interval_cases n
    rfl
  | succ f ih =>
    intro n h
    by_cases h0 : n = 0
    · simp [natDecAux, h0, decValue]
    · have hdiv : n / 10 ≤ f := by
        have : n / 10 < n := Nat.div_lt_self (Nat.pos_of_ne_zero h0) (by norm_num)
        omega
      rw [natDecAux, if_neg h0, decValue, ih _ hdiv,
        decDigitVal_decDigitChar (Nat.mod_lt n (by norm_num))]
      omega

theorem natDec_injective : Function.Injective natDec := by
  intro a b h
  have va := decValue_natDecAux a a le_rfl
  have vb := decValue_natDecAux b b le_rfl
  have hz : decValue (List.cons '0' List.nil) = 0 := by decide
  unfold natDec at h
  by_cases ha : a = 0 <;> by_cases hb : b = 0
  · omega
  · rw [if_pos ha, if_neg hb] at h
    exfalso
    have hdata := congrArg String.data h
    have hb1 : natDecAux b b = ['0'] := by
      have := congrArg List.reverse hdata
      simpa using this.symm
    rw [hb1, hz] at vb
    omega
  · rw [if_neg ha, if_pos hb] at h
    exfalso
    have hdata := congrArg String.data h
    have ha1 : natDecAux a a = ['0'] := by
      have := congrArg List.reverse hdata
      simpa using this
    rw [ha1, hz] at va
    omega
  · rw [if_neg ha, if_neg hb] at h
    have hdata := congrArg String.data h
    have heq : natDecAux a a = natDecAux b b := by
      have := congrArg List.reverse hdata
      simpa using this
    rw [heq, vb] at va
    exact va.symm

theorem natDecAux_mem_digit : ∀ (fuel n : Nat) (c : Char),
    c ∈ natDecAux fuel n → ∃ d, d < 10 ∧ c = decDigitChar d := by
  intro fuel
  induction fuel with
  | zero =>
    intro n c hc
    simp [natDecAux] at hc
  | succ f ih =>
    intro n c hc
    rw [natDecAux] at hc
    by_cases h0 : n = 0
    · simp [h0] at hc
    · rw [if_neg h0] at hc
      rcases List.mem_cons.mp hc with h | h
      · exact ⟨n % 10, Nat.mod_lt n (by norm_num), h⟩
      · exact ih _ _ h

theorem toLower_decDigitChar {d : Nat} (h : d < 10) :
    Char.toLower (decDigitChar d) = decDigitChar d := by
  interval_cases d <;> rfl

theorem map_toLower_natDec (n : Nat) :
    (natDec n).data.map Char.toLower = (natDec n).data := by
  unfold natDec
  by_cases h0 : n = 0
  · rw [if_pos h0]
    decide
  · rw [if_neg h0]
    show ((natDecAux n n).reverse.map Char.toLower) = (natDecAux n n).reverse
    rw [List.map_reverse]
    congr 1
    have hfix : ∀ c ∈ natDecAux n n, Char.toLower c = c := by
      intro c hc
      obtain ⟨d, hd, rfl⟩ := natDecAux_mem_digit n n c hc
      exact toLower_decDigitChar hd
    calc (natDecAux n n).map Char.toLower
        = (natDecAux n n).map id := List.map_congr_left hfix
      _ = natDecAux n n := List.map_id _

theorem rustToLower_candidateTitle (title : String) (n : Nat) :
    rustToLower (candidateTitle title n) =
      rustToLower title ++ " (" ++ natDec n ++ ")" := by
  have hsp : (" (" : String).data.map Char.toLower = (" (" : String).data := by decide
  have hcp : (")" : String).data.map Char.toLower = (")" : String).data := by decide
  apply stringDataEq
  show (candidateTitle title n).data.map Char.toLower = _
  unfold candidateTitle
  simp only [dataAppend, List.map_append, map_toLower_natDec, hsp, hcp]
  rfl

theorem candLower_injective (title : String) :
    Function.Injective (fun n => rustToLower (candidateTitle title n)) := by
  intro a b h
  simp only [rustToLower_candidateTitle] at h
  have hdata := congrArg String.data h
  simp only [dataAppend, List.append_assoc] at hdata
  have h1 := List.append_cancel_left hdata
  have h2 := List.append_cancel_left h1
  have h3 := List.append_cancel_right h2
  exact natDec_injective (stringDataEq h3)

theorem freeIndexExists (title : String) (used : List String) :
    ∃ n, rustToLower (candidateTitle title (n + 1)) ∉ used := by
  by_contra hcon
  push_neg at hcon
  have hmap : ∀ n ∈ Finset.range (used.length + 1),
      rustToLower (candidateTitle title (n + 1)) ∈ used.toFinset :=
    fun n _ => List.mem_toFinset.mpr (hcon n)
  have hinj : Set.InjOn (fun n => rustToLower (candidateTitle title (n + 1)))
      (Finset.range (used.length + 1)) := by
    intro a _ b _ hab
    have := candLower_injective title hab
    omega
  have hcard := Finset.card_le_card_of_injOn _ hmap hinj
  rw [Finset.card_range] at hcard
  have := used.toFinset_card_le
  omega

/-- Embedding of make_unique_title (lib.rs lines 824-836): the first free
candidate at or above suffix 1, found by the Rust loop; membership is the
case-insensitive HashSet lookup.  freeIndexExists carries the reason the
Rust loop terminates. -/
def make_unique_title (title : String) (used_titles : List String) : String :=
  if rustToLower title ∈ used_titles then
    candidateTitle title (Nat.find (freeIndexExists title used_titles) + 1)
  else title

/-! Plain-text and Markdown converters (lib.rs lines 444-760). -/

/-- Text node without marks, as built by the json macro in the source. -/
def mkTextNode (s : String) : Json :=
  Json.obj [("type", Json.str "text"), ("text", Json.str s)]

/-- Text node with a marks array. -/
def mkTextNodeMarks (s : String) (marks : List Json) : Json :=
  Json.obj [("type", Json.str "text"), ("text", Json.str s), ("marks", Json.arr marks)]

/-- Mark object of the given type. -/
def mkMark (t : String) : Json := Json.obj [("type", Json.str t)]

/-- Paragraph node with the given inline content. -/
def mkParagraph (content : List Json) : Json :=
  Json.obj [("type", Json.str "paragraph"), ("content", Json.arr content)]

/-- Paragraph with no inline content. -/
def emptyParagraph : Json := mkParagraph []

/-- Document root node. -/
def mkDoc (content : List Json) : Json :=
  Json.obj [("type", Json.str "doc"), ("content", Json.arr content)]

/-- Embedding of text_to_tiptap_json (lib.rs lines 445-473): split on blank
lines, keep the trimmed non-empty paragraphs, fall back to one empty
paragraph. -/
def text_to_tiptap_json (text : String) : Json :=
  let paragraphs := rustSplit text "\n\n"
  let content := paragraphs.foldl (fun acc para =>
    if (rustTrim para).isEmpty then acc
    else acc ++ [mkParagraph [mkTextNode (rustTrim para)]]) []
  let content := if content.isEmpty then [emptyParagraph] else content
  mkDoc content

/-- Events of the external Markdown parse-event source (pulldown_cmark),
restricted to the constructors the converter matches on; every event the
Rust code ignores is collapsed into the Other constructors. -/
inductive MdEvent where
  | startHeading (level : Nat)
  | startParagraph
  | startStrong
  | startEmphasis
  | startCodeBlock (lang : String)
  | startLink
  | startList (ordered : Bool)
  | startItem
  | startBlockQuote
  | startOther
  | endHeading
  | endParagraph
  | endStrong
  | endEmphasis
  | endCodeBlock
  | endLink
  | endList
  | endItem
  | endBlockQuote
  | endOther
  | text (s : String)
  | code (s : String)
  | softBreak
  | hardBreak
  | otherEvent

/-- Mutable state of markdown_to_tiptap_json (lib.rs lines 478-493); the
list stack holds the innermost open list first (a Rust Vec pushes and pops
at the other end, which this ordering mirrors exactly). -/
structure MdState where
  content : List Json
  current_paragraph : Option (List Json)
  in_strong : Bool
  in_em : Bool
  heading_level : Nat
  heading_content : List Json
  list_stack : List (String × List Json)
  list_item_content : Option (List Json)
  blockquote_content : List Json
  in_blockquote : Bool
  code_block_lang : String
  code_block_content : String
  in_code_block : Bool

/-- Initial converter state. -/
def mdInit : MdState :=
  { content := [], current_paragraph := none, in_strong := false, in_em := false,
    heading_level := 0, heading_content := [], list_stack := [],
    list_item_content := none, blockquote_content := [], in_blockquote := false,
    code_block_lang := "", code_block_content := "", in_code_block := false }

/-- Mutation of the last run by the soft/hard break arms (lib.rs lines
716-744): append one space to the last node's text field when the open
paragraph is non-empty and that field holds a string. -/
def addSpaceText (j : Json) : Json :=
  match j with
  | .obj fields =>
    .obj (fields.map (fun kv =>
      if kv.1 = "text" then
        (kv.1, match kv.2 with
               | .str s => Json.str (s ++ " ")
               | v => v)
      else kv))
  | j => j

/-- Soft/hard break handling on the open paragraph's runs. -/
def pushSpaceLast (para : List Json) : List Json :=
  if para.isEmpty then para
  else
    match para.getLast? with
    | some last => para.dropLast ++ [addSpaceText last]
    | none => para

/-- One step of the converter: the body of the event match (lib.rs lines
495-747). -/
def mdStep (st : MdState) (ev : MdEvent) : MdState :=
  match ev with
  | .startHeading level => { st with heading_level := level, heading_content := [] }
  | .startParagraph =>
    if st.current_paragraph.isNone then { st with current_paragraph := some [] } else st
  | .startStrong => { st with in_strong := true }
  | .startEmphasis => { st with in_em := true }
  | .startCodeBlock lang =>
    { st with in_code_block := true, code_block_content := "", code_block_lang := lang }
  | .startLink => st
  | .startList ordered =>
    { st with list_stack := (if ordered then "ordered" else "bullet", []) :: st.list_stack }
  | .startItem =>
    let st1 := { st with list_item_content := some [] }
    if st1.current_paragraph.isNone then { st1 with current_paragraph := some [] } else st1
  | .startBlockQuote => { st with in_blockquote := true, blockquote_content := [] }
  | .startOther => st
  | .endHeading =>
    if st.heading_level > 0 then
      { st with
        content := st.content ++
          [Json.obj [("type", Json.str "heading"),
                     ("attrs", Json.obj [("level", Json.num (Int.ofNat st.heading_level))]),
                     ("content", Json.arr st.heading_content)]]
        heading_content := []
        heading_level := 0 }
    else st
  | .endParagraph =>
    match st.current_paragraph with
    | some para =>
      let st1 := { st with current_paragraph := none }
      if st1.in_blockquote then
        { st1 with blockquote_content := st1.blockquote_content ++ [mkParagraph para] }
      else if ¬st1.list_stack.isEmpty then
        match st1.list_item_content with
        | some item => { st1 with list_item_content := some (item ++ [mkParagraph para]) }
        | none => st1
      else if ¬para.isEmpty then
        { st1 with content := st1.content ++ [mkParagraph para] }
      else st1
    | none => st
  | .endStrong => { st with in_strong := false }
  | .endEmphasis => { st with in_em := false }
  | .endCodeBlock =>
    { st with
      in_code_block := false
      content := st.content ++
        [Json.obj [("type", Json.str "codeBlock"),
                   ("attrs", Json.obj [("language",
                     if st.code_block_lang.isEmpty then Json.null
                     else Json.str st.code_block_lang)]),
                   ("content", Json.arr [mkTextNode st.code_block_content])]]
      code_block_content := ""
      code_block_lang := "" }
  | .endLink => st
  | .endList =>
    match st.list_stack with
    | (list_type, items) :: restStack =>
      let st1 := { st with list_stack := restStack }
      if ¬items.isEmpty then
        let node_type := if list_type = "ordered" then "orderedList" else "bulletList"
        { st1 with content := st1.content ++
          [Json.obj [("type", Json.str node_type), ("content", Json.arr items)]] }
      else st1
    | [] => st
  | .endItem =>
    let st1 :=
      match st.current_paragraph with
      | some para =>
        let s := { st with current_paragraph := none }
        if ¬para.isEmpty then
          match s.list_item_content with
          | some item => { s with list_item_content := some (item ++ [mkParagraph para]) }
          | none => s
        else s
      | none => st
    match st1.list_item_content with
    | some item_content =>
      let st2 := { st1 with list_item_content := none }
      match st2.list_stack with
      | (t, items) :: restStack =>
        let newItem :=
          if item_content.isEmpty then
            Json.obj [("type", Json.str "listItem"), ("content", Json.arr [emptyParagraph])]
          else
            Json.obj [("type", Json.str "listItem"), ("content", Json.arr item_content)]
        { st2 with list_stack := (t, items ++ [newItem]) :: restStack }
      | [] => st2
    | none => st1
  | .endBlockQuote =>
    let st1 := { st with in_blockquote := false }
    if ¬st1.blockquote_content.isEmpty then
      { st1 with
        content := st1.content ++
          [Json.obj [("type", Json.str "blockquote"),
                     ("content", Json.arr st1.blockquote_content)]]
        blockquote_content := [] }
    else st1
  | .endOther => st
  | .text s =>
    let marks := (if st.in_strong then [mkMark "bold"] else []) ++
                 (if st.in_em then [mkMark "italic"] else [])
    let text_node := if marks.isEmpty then mkTextNode s else mkTextNodeMarks s marks
    if st.in_code_block then
      { st with code_block_content := st.code_block_content ++ s }
    else if st.heading_level > 0 then
      { st with heading_content := st.heading_content ++ [text_node] }
    else if st.in_blockquote then
      match st.current_paragraph with
      | some para => { st with current_paragraph := some (para ++ [text_node]) }
      | none => st
    else
      match st.current_paragraph with
      | some para => { st with current_paragraph := some (para ++ [text_node]) }
      | none => st
  | .code s =>
    let text_node := mkTextNodeMarks s [mkMark "code"]
    if st.in_code_block then
      { st with code_block_content := st.code_block_content ++ s }
    else if st.heading_level > 0 then
      { st with heading_content := st.heading_content ++ [text_node] }
    else if st.in_blockquote then
      match st.current_paragraph with
      | some para => { st with current_paragraph := some (para ++ [text_node]) }
      | none => st
    else
      match st.current_paragraph with
      | some para => { st with current_paragraph := some (para ++ [text_node]) }
      | none => st
  | .softBreak =>
    match st.current_paragraph with
    | some para => { st with current_paragraph := some (pushSpaceLast para) }
    | none => st
  | .hardBreak =>
    match st.current_paragraph with
    | some para => { st with current_paragraph := some (pushSpaceLast para) }
    | none => st
  | .otherEvent => st

/-- Top-level block list the fold over the event stream accumulates. -/
def mdBlocks (events : List MdEvent) : List Json :=
  (events.foldl mdStep mdInit).content

/-- Embedding of markdown_to_tiptap_json (lib.rs lines 476-760) as a fold
over the event stream of the external pulldown_cmark parser. -/
def markdown_to_tiptap_json (events : List MdEvent) : Json :=
  let content := mdBlocks events
  let content := if content.isEmpty then [emptyParagraph] else content
  mkDoc content

/-- Modelled from the spec: the external Markdown parse-event source (the
pulldown_cmark crate, not part of this repository) produces for the input
string containing bold and em spans joined by " and " the standard
CommonMark event stream of one paragraph holding a strong span, plain
text, and an emphasis span. -/
def mdEventsBoldEm : List MdEvent :=
  [.startParagraph, .startStrong, .text "bold", .endStrong,
   .text " and ", .startEmphasis, .text "em", .endEmphasis, .endParagraph]

/-! Tree-to-XHTML renderer (lib.rs lines 1428-1640).  The recursion of
render_blocks and collect_image_names_from_node descends through a content
lookup rather than a direct subterm, so the size lemmas below feed the
termination argument. -/

theorem lookupField_sizeOf : ∀ (fields : List (String × Json)) (key : String) (v : Json),
    lookupField fields key = some v → sizeOf v < sizeOf fields := by
  intro fields key v
  induction fields with
  | nil => intro h; simp [lookupField] at h
  | cons kv rest ih =>
    intro h
    obtain ⟨k, w⟩ := kv
    rw [lookupField] at h
    split at h
    · cases h
      simp
      omega
    · have := ih h
      simp
      omega

theorem getF_sizeOf {j : Json} {key : String} {v : Json} (h : j.getF key = some v) :
    sizeOf v < sizeOf j := by
  cases j with
  | obj fields =>
    have := lookupField_sizeOf fields key v h
    simp
    omega
  | null => simp [Json.getF] at h
  | bool b => simp [Json.getF] at h
  | num n => simp [Json.getF] at h
  | str s => simp [Json.getF] at h
  | arr xs => simp [Json.getF] at h

theorem asArr_sizeOf {j : Json} {xs : List Json} (h : j.asArr = some xs) :
    sizeOf xs < sizeOf j := by
  cases j <;> simp [Json.asArr] at h
  subst h
  simp

theorem getArr_sizeOf {j : Json} {key : String} {xs : List Json}
    (h : j.getArr key = some xs) : sizeOf xs < sizeOf j := by
  unfold Json.getArr at h
  obtain ⟨w, hw, ha⟩ := Option.bind_eq_some.mp h
  have h1 := getF_sizeOf hw
  have h2 := asArr_sizeOf ha
  omega

/-- Embedding of escape_xml (lib.rs lines 1428-1433): the four sequential
single-character replaces. -/
def escape_xml (s : String) : String :=
  replaceChar '"' "&quot;"
    (replaceChar '>' "&gt;" (replaceChar '<' "&lt;" (replaceChar '&' "&amp;" s)))

/-- Decimal rendering of an integral number, as Rust Display prints the
(integral) font-size values the model admits. -/
def intDec (n : Int) : String :=
  if n < 0 then "-" ++ natDec n.natAbs else natDec n.toNat

/-- Embedding of Value::as_f64; the model restricts numbers to integers. -/
def Json.asF64 : Json → Option Int
  | .num n => some n
  | _ => none

/-- Span-open decision and text of a textStyle mark (lib.rs lines
1470-1479): fontSize and non-empty fontFamily attributes. -/
def textStyleParts (mark : Json) : Option Int × Option String :=
  let a := mark.getF "attrs"
  let fs := (a.bind (fun x => x.getF "fontSize")).bind Json.asF64
  let ff :=
    match (a.bind (fun x => x.getF "fontFamily")).bind Json.asStr with
    | some s => if s.isEmpty then none else some s
    | none => none
  (fs, ff)

/-- Opening tag of one mark (lib.rs lines 1464-1483). -/
def markOpen (mark : Json) : String :=
  match (mark.getStr "type").getD "" with
  | "bold" => "<strong>"
  | "italic" => "<em>"
  | "strike" => "<s>"
  | "code" => "<code>"
  | "textStyle" =>
    let p := textStyleParts mark
    if p.1.isSome ∨ p.2.isSome then
      let style :=
        (match p.1 with
         | some sz => "font-size:" ++ intDec sz ++ "pt;"
         | none => "") ++
        (match p.2 with
         | some fm => "font-family:" ++ escape_xml fm ++ ";"
         | none => "")
      "<span style=\"" ++ style ++ "\">"
    else ""
  | _ => ""

/-- Closing tag of one mark (lib.rs lines 1486-1499). -/
def markClose (mark : Json) : String :=
  match (mark.getStr "type").getD "" with
  | "bold" => "</strong>"
  | "italic" => "</em>"
  | "strike" => "</s>"
  | "code" => "</code>"
  | "textStyle" =>
    let p := textStyleParts mark
    if p.1.isSome ∨ p.2.isSome then "</span>" else ""
  | _ => ""

/-- Embedding of render_inline (lib.rs lines 1454-1506): per run, open
tags for the marks in order, the XML-escaped text, closing tags in
reverse order; hard breaks become br elements. -/
def render_inline (items : List Json) : String :=
  String.join (items.map (fun item =>
    match (item.getStr "type").getD "" with
    | "hardBreak" => "<br/>"
    | "text" =>
      let text := (item.getStr "text").getD ""
      let marks := (item.getArr "marks").getD []
      String.join (marks.map markOpen) ++ escape_xml text ++
        String.join (marks.reverse.map markClose)
    | _ => ""))

/-- Alignment attribute handling (lib.rs lines 1513-1517): a textAlign
attribute other than left becomes an inline style. -/
def alignStyle (node : Json) : String :=
  match ((node.getF "attrs").bind (fun a => a.getF "textAlign")).bind Json.asStr with
  | some a => if a = "left" then "" else " style=\"text-align:" ++ a ++ "\""
  | none => ""

mutual

/-- XHTML for one block node: the loop body of render_blocks (lib.rs lines
1511-1589). -/
def render_block (node : Json) : String :=
  let t := (node.getStr "type").getD ""
  let style := alignStyle node
  if t = "paragraph" then
    let inner :=
      match node.getArr "content" with
      | some items => render_inline items
      | none => ""
    if inner.isEmpty then "<p" ++ style ++ ">&#160;</p>\n"
    else "<p" ++ style ++ ">" ++ inner ++ "</p>\n"
  else if t = "heading" then
    let level := Nat.min 6 (Nat.max 2 ((headingLevelAttr node).getD 2))
    let inner :=
      match node.getArr "content" with
      | some items => render_inline items
      | none => ""
    "<h" ++ natDec level ++ style ++ ">" ++ inner ++ "</h" ++ natDec level ++ ">\n"
  else if t = "blockquote" then
    "<blockquote>\n" ++
    (match h : node.getArr "content" with
     | some inner => render_blocks inner
     | none => "") ++
    "</blockquote>\n"
  else if t = "bulletList" ∨ t = "orderedList" then
    let tag := if t = "bulletList" then "ul" else "ol"
    "<" ++ tag ++ ">\n" ++
    (match node.getArr "content" with
     | some items =>
       String.join (items.map (fun item =>
         "<li>" ++
         (match item.getArr "content" with
          | some paras =>
            String.join (paras.map (fun para =>
              match para.getArr "content" with
              | some inline => render_inline inline
              | none => ""))
          | none => "") ++
         "</li>\n"))
     | none => "") ++
    "</" ++ tag ++ ">\n"
  else if t = "horizontalRule" then "<hr/>\n"
  else if t = "colorBleed" then
    let bg := (((node.getF "attrs").bind (fun a => a.getF "backgroundColor")).bind
      Json.asStr).getD "#000000"
    let textColor := (((node.getF "attrs").bind (fun a => a.getF "textColor")).bind
      Json.asStr).getD "#ffffff"
    "<div style=\"background-color:" ++ escape_xml bg ++ ";color:" ++
      escape_xml textColor ++ ";margin:0 -2em;padding:2em;\">\n" ++
    (match h : node.getArr "content" with
     | some inner => render_blocks inner
     | none => "") ++
    "</div>\n"
  else if t = "imageBleed" then
    let name := (((node.getF "attrs").bind (fun a => a.getF "name")).bind Json.asStr).getD ""
    let alt := (((node.getF "attrs").bind (fun a => a.getF "alt")).bind Json.asStr).getD ""
    if ¬name.isEmpty then
      "<div class=\"image-bleed\"><img src=\"../images/" ++ escape_xml name ++
        "\" alt=\"" ++ escape_xml alt ++ "\"/></div>\n"
    else ""
  else ""
termination_by sizeOf node
decreasing_by
  all_goals exact getArr_sizeOf (by assumption)

/-- Embedding of render_blocks (lib.rs lines 1509-1592). -/
def render_blocks (nodes : List Json) : String :=
  match nodes with
  | [] => ""
  | node :: rest => render_block node ++ render_blocks rest
termination_by sizeOf nodes
decreasing_by
  all_goals (simp only [List.cons.sizeOf_spec]; omega)

end

mutual

/-- Embedding of collect_image_names_from_node (lib.rs lines 1607-1624):
record a non-empty, not-yet-seen imageBleed asset name, then recurse into
the node's content array. -/
def collect_image_names_from_node (node : Json) (names : List String) : List String :=
  let names1 :=
    if node.getStr "type" = some "imageBleed" then
      match ((node.getF "attrs").bind (fun a => a.getF "name")).bind Json.asStr with
      | some name =>
        if !name.isEmpty && !names.contains name then names ++ [name] else names
      | none => names
    else names
  match h : node.getArr "content" with
  | some children => collect_image_list children names1
  | none => names1
termination_by sizeOf node
decreasing_by
  all_goals exact getArr_sizeOf (by assumption)

/-- Fold of collect_image_names_from_node over a node list (the loops of
lib.rs lines 1599-1601 and 1620-1622). -/
def collect_image_list (children : List Json) (names : List String) : List String :=
  match children with
  | [] => names
  | c :: rest => collect_image_list rest (collect_image_names_from_node c names)
termination_by sizeOf children
decreasing_by
  all_goals (simp only [List.cons.sizeOf_spec]; omega)

end

/-- Embedding of collect_image_names (lib.rs lines 1595-1605). -/
def collect_image_names (content : Option Json) : List String :=
  match content with
  | some doc =>
    (match doc.getArr "content" with
     | some nodes => collect_image_list nodes []
     | none => [])
  | none => []

/-- Embedding of chapter_to_xhtml (lib.rs lines 1626-1640). -/
def chapter_to_xhtml (title : String) (content : Option Json) : String :=
  let body :=
    match content with
    | some doc =>
      (match doc.getArr "content" with
       | some nodes => render_blocks nodes
       | none => "")
    | none => ""
  "<?xml version=\"1.0\" encoding=\"UTF-8\"?>\n" ++
  "<!DOCTYPE html>\n" ++
  "<html xmlns=\"http://www.w3.org/1999/xhtml\">\n" ++
  "<head>\n<title>" ++ escape_xml title ++ "</title>\n" ++
  "<link rel=\"stylesheet\" type=\"text/css\" href=\"../style.css\"/>\n" ++
  "</head>\n<body>\n" ++ body ++ "</body>\n</html>\n"

/-- Embedding of Path::extension().and_then(to_str).unwrap_or("") on an
image file name (lib.rs lines 1651-1654): the part after the last dot,
empty when there is no dot or when the only dot starts the name. -/
def pathExt (s : String) : String :=
  let rev := s.data.reverse
  let pre := rev.takeWhile (fun c => c ≠ '.')
  if pre.length = rev.length then ""
  else if pre.length + 1 = rev.length then ""
  else String.mk pre.reverse

/-- Embedding of image_mime_for_ext (lib.rs lines 1346-1356). -/
def image_mime_for_ext (ext : String) : String :=
  let lower := rustToLower ext
  if lower = "jpg" ∨ lower = "jpeg" then "image/jpeg"
  else if lower = "png" then "image/png"
  else if lower = "gif" then "image/gif"
  else if lower = "webp" then "image/webp"
  else if lower = "svg" then "image/svg+xml"
  else "image/jpeg"

/-- Chapter manifest items of build_opf (lib.rs lines 1646-1649): one item
for each of the n exported chapters. -/
def opfChapterItems (n : Nat) : List String :=
  (List.range n).map (fun i =>
    "    <item id=\"ch" ++ pad3 (i + 1) ++ "\" href=\"chapters/ch" ++ pad3 (i + 1) ++
    ".xhtml\" media-type=\"application/xhtml+xml\"/>\n")

/-- Image manifest items of build_opf (lib.rs lines 1650-1662): one item
per entry of the image-name list it receives. -/
def opfImageItems (images : List String) : List String :=
  images.map (fun img =>
    let mime := image_mime_for_ext (pathExt img)
    let id := String.mk (img.data.map (fun c => if c.isAlphanum ∨ c = '-' then c else '_'))
    "    <item id=\"img-" ++ id ++ "\" href=\"images/" ++ escape_xml img ++
    "\" media-type=\"" ++ mime ++ "\"/>\n")

/-- Spine items of build_opf (lib.rs lines 1663-1665). -/
def opfSpineItems (n : Nat) : List String :=
  (List.range n).map (fun i => "    <itemref idref=\"ch" ++ pad3 (i + 1) ++ "\"/>\n")

/-- Embedding of build_opf (lib.rs lines 1642-1687); the Rust format
template's backslash line continuations strip the indentation of the
continued lines, so most elements start flush left. -/
def build_opf (title author uuid modified : String) (n : Nat) (images : List String) :
    String :=
  let author_el :=
    if ¬author.isEmpty then "    <dc:creator>" ++ escape_xml author ++ "</dc:creator>\n"
    else ""
  "<?xml version=\"1.0\" encoding=\"UTF-8\"?>\n" ++
  "<package xmlns=\"http://www.idpf.org/2007/opf\" version=\"3.0\" unique-identifier=\"book-id\">\n" ++
  "<metadata xmlns:dc=\"http://purl.org/dc/elements/1.1/\">\n" ++
  "<dc:identifier id=\"book-id\">urn:uuid:" ++ uuid ++ "</dc:identifier>\n" ++
  "<dc:title>" ++ escape_xml title ++ "</dc:title>\n" ++
  author_el ++ "    <dc:language>en</dc:language>\n" ++
  "<meta property=\"dcterms:modified\">" ++ modified ++ "</meta>\n" ++
  "</metadata>\n" ++
  "<manifest>\n" ++
  "<item id=\"nav\" href=\"nav.xhtml\" media-type=\"application/xhtml+xml\" properties=\"nav\"/>\n" ++
  "<item id=\"ncx\" href=\"toc.ncx\" media-type=\"application/x-dtbncx+xml\"/>\n" ++
  "<item id=\"css\" href=\"style.css\" media-type=\"text/css\"/>\n" ++
  String.join (opfChapterItems n) ++ String.join (opfImageItems images) ++
  "  </manifest>\n" ++
  "<spine toc=\"ncx\">\n" ++
  String.join (opfSpineItems n) ++ "  </spine>\n" ++
  "</package>"

/-- Embedding of build_nav (lib.rs lines 1689-1702). -/
def build_nav (title : String) (chapter_titles : List String) : String :=
  let items := String.join (chapter_titles.enum.map (fun p =>
    "      <li><a href=\"chapters/ch" ++ pad3 (p.1 + 1) ++ ".xhtml\">" ++
    escape_xml p.2 ++ "</a></li>\n"))
  "<?xml version=\"1.0\" encoding=\"UTF-8\"?>\n" ++
  "<!DOCTYPE html>\n" ++
  "<html xmlns=\"http://www.w3.org/1999/xhtml\" xmlns:epub=\"http://www.idpf.org/2007/ops\">\n" ++
  "<head><title>" ++ escape_xml title ++ "</title></head>\n" ++
  "<body>\n  <nav epub:type=\"toc\">\n    <h1>" ++ escape_xml title ++ "</h1>\n    <ol>\n" ++
  items ++ "    </ol>\n  </nav>\n</body>\n</html>"

/-- Embedding of build_ncx (lib.rs lines 1704-1726). -/
def build_ncx (title uuid : String) (chapter_titles : List String) : String :=
  let nav_points := String.join (chapter_titles.enum.map (fun p =>
    "    <navPoint id=\"ch" ++ pad3 (p.1 + 1) ++ "\" playOrder=\"" ++ natDec (p.1 + 1) ++ "\">\n" ++
    "<navLabel><text>" ++ escape_xml p.2 ++ "</text></navLabel>\n" ++
    "<content src=\"chapters/ch" ++ pad3 (p.1 + 1) ++ ".xhtml\"/>\n" ++
    "</navPoint>\n"))
  "<?xml version=\"1.0\" encoding=\"UTF-8\"?>\n" ++
  "<ncx xmlns=\"http://www.daisy.org/z3986/2005/ncx/\" version=\"2005-1\">\n" ++
  "<head>\n" ++
  "<meta name=\"dtb:uid\" content=\"urn:uuid:" ++ uuid ++ "\"/>\n" ++
  "<meta name=\"dtb:depth\" content=\"1\"/>\n" ++
  "<meta name=\"dtb:totalPageCount\" content=\"0\"/>\n" ++
  "<meta name=\"dtb:maxPageNumber\" content=\"0\"/>\n" ++
  "</head>\n" ++
  "<docTitle><text>" ++ escape_xml title ++ "</text></docTitle>\n" ++
  "<navMap>\n" ++ nav_points ++ "  </navMap>\n" ++
  "</ncx>"

/-- Content of META-INF/container.xml (lib.rs lines 1825-1830). -/
def containerXml : String :=
  "<?xml version=\"1.0\" encoding=\"UTF-8\"?>\n" ++
  "<container version=\"1.0\" xmlns=\"urn:oasis:names:tc:opendocument:xmlns:container\">\n" ++
  "<rootfiles>\n" ++
  "<rootfile full-path=\"OEBPS/content.opf\" media-type=\"application/oebps-package+xml\"/>\n" ++
  "</rootfiles>\n" ++
  "</container>"

/-- Embedding of the EPUB_CSS constant (lib.rs lines 1728-1743). -/
def epubCss : String :=
  "body \x7b font-family: serif; font-size: 1em; line-height: 1.6; margin: 0; padding: 0; \x7d\n" ++
  "p \x7b margin: 0 0 1em; orphans: 2; widows: 2; \x7d\n" ++
  "h2 \x7b font-size: 1.5em; font-weight: bold; margin: 1.5em 0 0.5em; page-break-after: avoid; \x7d\n" ++
  "h3 \x7b font-size: 1.3em; font-weight: bold; margin: 1.5em 0 0.5em; page-break-after: avoid; \x7d\n" ++
  "h4 \x7b font-size: 1.1em; font-weight: bold; margin: 1.5em 0 0.5em; page-break-after: avoid; \x7d\n" ++
  "h5 \x7b font-size: 1em;   font-weight: bold; margin: 1.5em 0 0.5em; page-break-after: avoid; \x7d\n" ++
  "h6 \x7b font-size: 0.9em; font-weight: bold; margin: 1.5em 0 0.5em; page-break-after: avoid; \x7d\n" ++
  "blockquote \x7b margin: 1em 2em; font-style: italic; \x7d\n" ++
  "ul, ol \x7b margin: 0 0 1em; padding-left: 2em; \x7d\n" ++
  "li \x7b margin: 0.25em 0; \x7d\n" ++
  "hr \x7b border: none; border-top: 1px solid #ccc; margin: 2em 0; \x7d\n" ++
  "strong \x7b font-weight: bold; \x7d\n" ++
  "em \x7b font-style: italic; \x7d\n" ++
  "s \x7b text-decoration: line-through; \x7d\n" ++
  "code \x7b font-family: monospace; font-size: 0.9em; \x7d"

/-- One archive entry: name, stored-uncompressed flag (true for Stored,
false for Deflated), and content bytes. -/
structure ZipEntry where
  name : String
  stored : Bool
  data : String
deriving DecidableEq

/-- Everything export_epub reads from its surroundings: the parsed
project.json fields it uses, the chapterTitles map, the loaded chapter
documents (none for a missing or unparsable chapter file), the asset
directory, and the time-dependent uuid/modified/date strings
(generate_epub_uuid mixes the current timestamp into its hash, so the
identifier is a parameter here). -/
structure EpubEnv where
  title : String
  author : String
  chapterOrder : List Nat
  chapterTitles : Nat → Option String
  chapterContent : Nat → Option Json
  assetExists : String → Bool
  assetData : String → String
  uuid : String
  modified : String
  date : String

/-- Chapter id resolution of export_epub (lib.rs lines 1774-1781): an
empty request exports the whole canonical order; otherwise the canonical
order filtered to the requested ids. -/
def epubIdsToExport (chapterOrder chapter_ids : List Nat) : List Nat :=
  if chapter_ids.isEmpty then chapterOrder
  else chapterOrder.filter (fun id => chapter_ids.contains id)

/-- Loaded (title, content) pairs of the exported chapters (lib.rs lines
1784-1800). -/
def epubChapters (env : EpubEnv) (chapter_ids : List Nat) :
    List (String × Option Json) :=
  (epubIdsToExport env.chapterOrder chapter_ids).map (fun id =>
    ((env.chapterTitles id).getD (chapterN id), env.chapterContent id))

/-- Order-preserving de-duplicated image names over all exported chapters
(lib.rs lines 1832-1840). -/
def epubAllImageNames (chapters : List (String × Option Json)) : List String :=
  chapters.foldl (fun all ch =>
    (collect_image_names ch.2).foldl (fun acc name =>
      if acc.contains name then acc else acc ++ [name]) all) []

/-- Filename sanitization of export_epub (lib.rs lines 1806-1808). -/
def epubSafeTitle (title : String) : String :=
  String.mk (title.data.map (fun c =>
    if c.isAlphanum ∨ c = '-' ∨ c = '_' then c else '_'))

/-- Embedding of export_epub (lib.rs lines 1745-1885): the output filename
together with the archive as its ordered entry list.  Referenced images
missing from the asset directory are skipped when embedding files; the
write errors of the Rust code do not arise in the model. -/
def export_epub (env : EpubEnv) (chapter_ids : List Nat) : String × List ZipEntry :=
  let chapters := epubChapters env chapter_ids
  let all_image_names := epubAllImageNames chapters
  let chapter_titles := chapters.map (fun c => c.1)
  let filename := epubSafeTitle env.title ++ "_" ++ env.date ++ ".epub"
  let entries :=
    [ZipEntry.mk "mimetype" true "application/epub+zip",
     ZipEntry.mk "META-INF/container.xml" false containerXml,
     ZipEntry.mk "OEBPS/style.css" false epubCss] ++
    (all_image_names.filter env.assetExists).map (fun img =>
      ZipEntry.mk ("OEBPS/images/" ++ img) false (env.assetData img)) ++
    chapters.enum.map (fun p =>
      ZipEntry.mk ("OEBPS/chapters/ch" ++ pad3 (p.1 + 1) ++ ".xhtml") false
        (chapter_to_xhtml p.2.1 p.2.2)) ++
    [ZipEntry.mk "OEBPS/nav.xhtml" false (build_nav env.title chapter_titles),
     ZipEntry.mk "OEBPS/toc.ncx" false (build_ncx env.title env.uuid chapter_titles),
     ZipEntry.mk "OEBPS/content.opf" false
       (build_opf env.title env.author env.uuid env.modified chapters.length
         all_image_names)]
  (filename, entries)

/-! RTF project export (lib.rs lines 1239-1322): the claims about it only
concern the id resolution and the output filename. -/

/-- Chapter id resolution of export_project (lib.rs lines 1257-1261): an
explicit non-empty list is used exactly as given, without filtering or
reordering against the project's chapter order. -/
def rtfIdsToExport (chapterOrder chapter_ids : List Nat) : List Nat :=
  if chapter_ids.isEmpty then chapterOrder else chapter_ids

/-- Filename computed by export_project (lib.rs lines 1301-1311): the
range suffix appears exactly when the exported id list's length differs
from the chapter order's length. -/
def export_rtf_filename (title : String) (chapterOrder chapter_ids : List Nat)
    (date : String) : String :=
  let ids_to_export := rtfIdsToExport chapterOrder chapter_ids
  if ids_to_export.length = chapterOrder.length then
    replaceChar ' ' "_" title ++ "_" ++ date ++ ".rtf"
  else
    let id_range := String.intercalate "-" (ids_to_export.map natDec)
    replaceChar ' ' "_" title ++ "_" ++ date ++ "_Chapters_" ++ id_range ++ ".rtf"

/-! Chapter saving (lib.rs lines 238-261). -/

/-- Filesystem state save_chapter touches: file contents by path and the
directories create_dir_all has made. -/
structure FS where
  files : List (String × String)
  dirs : List String

/-- Embedding of fs::create_dir_all. -/
def FS.mkdirAll (fs : FS) (path : String) : FS :=
  if fs.dirs.contains path then fs else { fs with dirs := fs.dirs ++ [path] }

/-- Embedding of fs::write: replace or create the file. -/
def FS.writeFile (fs : FS) (path content : String) : FS :=
  { fs with files := (path, content) :: fs.files.filter (fun kv => kv.1 ≠ path) }

/-- File contents at a path. -/
def FS.readFile (fs : FS) (path : String) : Option String :=
  (fs.files.find? (fun kv => kv.1 == path)).map (fun kv => kv.2)

/-- Embedding of save_chapter (lib.rs lines 238-261): the chapters
directory is created, the content must parse as JSON, and only then is
the chapter file written.  The external serde_json parser is a parameter:
the claim is about the ordering of validation and write, which does not
depend on which strings parse. -/
def save_chapter (parse : String → Option Json) (fs : FS)
    (project_path : String) (chapter_id : Nat) (json_content : String) :
    FS × Except String Unit :=
  let chapters_dir := project_path ++ "/chapters"
  let fs1 := fs.mkdirAll chapters_dir
  let chapter_file := chapters_dir ++ "/" ++ natDec chapter_id ++ ".json"
  match parse json_content with
  | none => (fs1, Except.error "Invalid JSON content")
  | some _ => (fs1.writeFile chapter_file json_content, Except.ok ())

/-! Helper notions used by the claim statements. -/

/-- Half-point font size the RTF renderer chooses from the result of the
heading level lookup (the mapping of lib.rs lines 341-350 together with
the absent-level arm of line 350). -/
def headingFs : Option Nat → Nat
  | some l =>
    (match l with
     | 2 => 32
     | 3 => 28
     | 4 => 24
     | _ => 20)
  | none => 28

/-- Content items of a node as the RTF heading arm reads them. -/
def rtfHeadingText (node : Json) : String :=
  match node.getArr "content" with
  | some items => plainTextItems items
  | none => ""

/-- Number of lines starting with the delimiter. -/
def countDelim (delimiter : String) (lines : List String) : Nat :=
  (lines.filter (fun l => rustStartsWith l delimiter)).length

/-! Claim C2: RTF heading font sizes. -/

/-- Claim C2 counterexample: a heading node with no level attribute is
rendered with half-point font size 28, not 20 as the claim states for an
absent level. -/
theorem claim_C2_counterexample :
    rtf_node (Json.obj [("type", Json.str "heading"),
      ("content", Json.arr [mkTextNode "T"])]) =
      "\x7b\\pard \\fs28 \\b T\\b0\\par\x7d\n" ∧
    ("\x7b\\pard \\fs28 \\b T\\b0\\par\x7d\n" : String) ≠
      "\x7b\\pard \\fs20 \\b T\\b0\\par\x7d\n" := by
  constructor
  · decide
  · decide

/-- Claim C2 (amended): every heading node emits exactly one bold RTF
group; its half-point font size is 32/28/24 for levels 2/3/4 and 20 for
any other present u64 level, but 28 (not 20) when the level attribute is
absent or not a u64; only the plain text of the content items is emitted
and marks are ignored. -/
theorem claim_C2 (node : Json) (h : node.getStr "type" = some "heading") :
    rtf_node node =
      "\x7b\\pard \\fs" ++ natDec (headingFs (headingLevelAttr node)) ++ " \\b " ++
      rtfHeadingText node ++ "\\b0\\par\x7d\n" := by
  simp only [rtf_node, h]
  cases hl : headingLevelAttr node with
  | none =>
    have hp : ("\x7b\\pard \\fs28 \\b " : String) =
        "\x7b\\pard \\fs" ++ natDec (headingFs none) ++ " \\b " := by decide
    simp only [headingFs, rtfHeadingText, hp]
  | some level =>
    simp only [headingFs, rtfHeadingText]

/-- Claim C2 witness: the amended statement applied to a concrete level-2
heading. -/
theorem claim_C2_witness :
    rtf_node (Json.obj [("type", Json.str "heading"),
      ("attrs", Json.obj [("level", Json.num 2)]),
      ("content", Json.arr [mkTextNode "T"])]) =
      "\x7b\\pard \\fs32 \\b T\\b0\\par\x7d\n" := by
  have h := claim_C2 (Json.obj [("type", Json.str "heading"),
    ("attrs", Json.obj [("level", Json.num 2)]),
    ("content", Json.arr [mkTextNode "T"])]) (by decide)
  rw [h]
  decide

/-! Claim C3: splitter example and the suppression rule. -/

theorem goSplit_extract_mem (delimiter : String) :
    ∀ (lines : List String) (num : Nat) (t : Option String) (c : List String)
      (p : String × String), p ∈ goSplit delimiter true lines num t c → p.2 ≠ "" := by
  intro lines
  induction lines with
  | nil =>
    intro num t c p hp
    cases t with
    | none => simp [goSplit] at hp
    | some ttl =>
      rw [goSplit] at hp
      split at hp
      · rename_i hcond
        rcases hcond with hne | habs
        · simp at hp
          rw [hp]
          exact hne
        · simp at habs
      · simp at hp
  | cons line rest ih =>
    intro num t c p hp
    rw [goSplit.eq_def] at hp
    cases t with
    | none =>
      dsimp only at hp
      split at hp
      · exact ih _ _ _ _ hp
      · exact ih _ _ _ _ hp
    | some ttl =>
      dsimp only at hp
      split at hp
      · split at hp
        · rename_i hcond
          rcases List.mem_cons.mp hp with hfirst | hrest
          · rcases hcond with hne | habs
            · rw [hfirst]
              exact hne
            · simp at habs
          · exact ih _ _ _ _ hrest
        · exact ih _ _ _ _ hp
      · exact ih _ _ _ _ hp

theorem goSplit_keep_length (delimiter : String) :
    ∀ (lines : List String) (num : Nat) (t : Option String) (c : List String),
      (goSplit delimiter false lines num t c).length =
        countDelim delimiter lines + (if t.isSome then 1 else 0) := by
  intro lines
  induction lines with
  | nil =>
    intro num t c
    cases t with
    | none => simp [goSplit, countDelim]
    | some ttl =>
      rw [goSplit]
      rw [if_pos (Or.inr (by simp))]
      simp [countDelim]
  | cons line rest ih =>
    intro num t c
    rw [goSplit.eq_def]
    cases t with
    | none =>
      dsimp only
      split
      · rename_i hs
        rw [ih]
        simp [countDelim, hs]
      · rename_i hs
        rw [ih]
        simp [countDelim, hs]
    | some ttl =>
      dsimp only
      split
      · rename_i hs
        rw [if_pos (Or.inr (by simp))]
        simp only [List.length_cons, ih]
        simp [countDelim, hs]
      · rename_i hs
        rw [ih]
        simp [countDelim, hs]

/-- Claim C3: the concrete delimiter-splitting example of the spec, and
the suppression rule: with extraction enabled every section the main pass
emits has non-empty (trimmed) content, and with extraction disabled every
delimiter line yields exactly one section, empty or not. -/
theorem claim_C3 :
    split_by_delimiter "junk\n## A\nfoo\nbar\n## \nbaz" "## " true =
      [("A", "foo\nbar"), ("Chapter 2", "baz")] ∧
    (∀ (content delimiter : String) (p : String × String),
      p ∈ splitSections content delimiter true → p.2 ≠ "") ∧
    (∀ (content delimiter : String),
      (splitSections content delimiter false).length =
        countDelim delimiter (rustLines content)) := by
  refine ⟨by decide, ?_, ?_⟩
  · intro content delimiter p hp
    exact goSplit_extract_mem delimiter _ _ _ _ _ hp
  · intro content delimiter
    rw [splitSections, goSplit_keep_length]
    simp

/-- Claim C3 witness: the suppression rule applied at concrete inputs. -/
theorem claim_C3_witness :
    (("A", "foo\nbar") : String × String).2 ≠ "" ∧
    (splitSections "x\n## a\ny" "## " false).length =
      countDelim "## " (rustLines "x\n## a\ny") :=
  ⟨claim_C3.2.1 "junk\n## A\nfoo\nbar\n## \nbaz" "## " ("A", "foo\nbar") (by decide),
   claim_C3.2.2 "x\n## a\ny" "## "⟩

/-! Claim C10: the fallback section. -/

/-- Claim C10: split_by_delimiter always returns at least one section;
whenever the main pass produces none - also when delimiter lines were
matched but every section was suppressed - the result is the single pair
of "Chapter 1" with the whole original input, untrimmed, delimiter lines
included. -/
theorem claim_C10 :
    (∀ (content delimiter : String) (extract : Bool),
       split_by_delimiter content delimiter extract ≠ []) ∧
    (∀ (content delimiter : String) (extract : Bool),
       splitSections content delimiter extract = [] →
       split_by_delimiter content delimiter extract = [("Chapter 1", content)]) ∧
    countDelim "## " (rustLines "## \n   \n## ") = 2 ∧
    splitSections "## \n   \n## " "## " true = [] ∧
    split_by_delimiter "## \n   \n## " "## " true =
      [("Chapter 1", "## \n   \n## ")] := by
  refine ⟨?_, ?_, by decide, by decide, by decide⟩
  · intro content delimiter extract
    rw [split_by_delimiter]
    split
    · simp
    · assumption
  · intro content delimiter extract hempty
    rw [split_by_delimiter]
    rw [if_pos hempty]
    rfl

/-- Claim C10 witness: the fallback at a delimiter-free input. -/
theorem claim_C10_witness :
    split_by_delimiter "abc" "##" true = [("Chapter 1", "abc")] :=
  claim_C10.2.1 "abc" "##" true (by decide)

/-! Claim C4: title deduplication. -/

/-- Claim C4: make_unique_title returns the candidate unchanged when its
lowercase form is not in the used set, and otherwise the candidate with
the smallest suffix n at or above 1 whose lowercase form is free; with
the spec's three concrete examples. -/
theorem claim_C4 (title : String) (used : List String) :
    (rustToLower title ∉ used → make_unique_title title used = title) ∧
    (rustToLower title ∈ used →
      ∃ n, 1 ≤ n ∧ make_unique_title title used = candidateTitle title n ∧
        rustToLower (candidateTitle title n) ∉ used ∧
        ∀ m, 1 ≤ m → m < n → rustToLower (candidateTitle title m) ∈ used) ∧
    make_unique_title "Intro" [] = "Intro" ∧
    make_unique_title "Intro" ["intro"] = "Intro (1)" ∧
    make_unique_title "Intro" ["intro", "intro (1)"] = "Intro (2)" := by
  refine ⟨?_, ?_, ?_, ?_, ?_⟩
  · intro hnot
    rw [make_unique_title, if_neg hnot]
  · intro hmem
    refine ⟨Nat.find (freeIndexExists title used) + 1, by omega, ?_, ?_, ?_⟩
    · rw [make_unique_title, if_pos hmem]
    · exact Nat.find_spec (freeIndexExists title used)
    · intro m h1 hlt
      have := Nat.find_min (freeIndexExists title used) (show m - 1 < _ by omega)
      have hm : m - 1 + 1 = m := by omega
      rw [hm] at this
      exact not_not.mp this
  · rw [make_unique_title, if_neg (by decide)]
  · rw [make_unique_title, if_pos (by decide)]
    have hfind : Nat.find (freeIndexExists "Intro" ["intro"]) = 0 := by
      rw [Nat.find_eq_iff]
      exact ⟨by decide, by omega⟩
    rw [hfind]
    decide
  · rw [make_unique_title, if_pos (by decide)]
    have hfind : Nat.find (freeIndexExists "Intro" ["intro", "intro (1)"]) = 1 := by
      rw [Nat.find_eq_iff]
      refine ⟨by decide, ?_⟩
      intro m hm
      interval_cases m
      decide
    rw [hfind]
    decide

/-- Claim C4 witness: both branches applied at concrete inputs. -/
theorem claim_C4_witness :
    make_unique_title "A" [] = "A" ∧
    (∃ n, 1 ≤ n ∧ make_unique_title "Intro" ["intro"] = candidateTitle "Intro" n ∧
      rustToLower (candidateTitle "Intro" n) ∉ ["intro"] ∧
      ∀ m, 1 ≤ m → m < n → rustToLower (candidateTitle "Intro" m) ∈ ["intro"]) :=
  ⟨(claim_C4 "A" []).1 (by decide), (claim_C4 "Intro" ["intro"]).2.1 (by decide)⟩

/-! Claim C5: the bold/italic Markdown example. -/

/-- Claim C5: the Markdown converter maps the event stream of the input
with a strong span, plain joining text and an emphasis span to exactly
one paragraph with three runs: bold-marked "bold", unmarked " and ", and
italic-marked "em". -/
theorem claim_C5 :
    markdown_to_tiptap_json mdEventsBoldEm =
      mkDoc [mkParagraph [mkTextNodeMarks "bold" [mkMark "bold"],
                          mkTextNode " and ",
                          mkTextNodeMarks "em" [mkMark "italic"]]] := rfl

/-! Claim C6: converters never produce an empty block sequence. -/

theorem splitSepAux_chars (sep : List Char) :
    ∀ (l : List Char) (skip : Nat) (acc : List Char) (piece : List Char),
      piece ∈ splitSepAux sep l skip acc → ∀ c ∈ piece, c ∈ l ∨ c ∈ acc := by
  intro l
  induction l with
  | nil =>
    intro skip acc piece hp c hc
    simp [splitSepAux] at hp
    subst hp
    right
    exact List.mem_reverse.mp hc
  | cons x rest ih =>
    intro skip acc piece hp c hc
    cases skip with
    | succ sk =>
      rw [splitSepAux] at hp
      rcases ih sk acc piece hp c hc with h1 | h1
      · exact Or.inl (List.mem_cons_of_mem x h1)
      · exact Or.inr h1
    | zero =>
      rw [splitSepAux] at hp
      split at hp
      · rcases List.mem_cons.mp hp with hfirst | hrest
        · subst hfirst
          exact Or.inr (List.mem_reverse.mp hc)
        · rcases ih _ _ piece hrest c hc with h1 | h1
          · exact Or.inl (List.mem_cons_of_mem x h1)
          · simp at h1
      · rcases ih _ _ piece hp c hc with h1 | h1
        · exact Or.inl (List.mem_cons_of_mem x h1)
        · rcases List.mem_cons.mp h1 with hx | hx
          · rw [hx]
            exact Or.inl (List.mem_cons_self x rest)
          · exact Or.inr hx

theorem rustTrim_all_ws {s : String} (h : ∀ c ∈ s.data, wsChar c) :
    rustTrim s = "" := by
  unfold rustTrim
  rw [List.dropWhile_eq_nil_iff.mpr h]
  rfl

theorem rustSplit_all_ws {text : String} (h : ∀ c ∈ text.data, wsChar c) :
    ∀ para ∈ rustSplit text "\n\n", rustTrim para = "" := by
  intro para hp
  unfold rustSplit at hp
  obtain ⟨piece, hpiece, rfl⟩ := List.mem_map.mp hp
  apply rustTrim_all_ws
  intro c hc
  rcases splitSepAux_chars ("\n\n" : String).data text.data 0 [] piece hpiece c hc with
    h1 | h1
  · exact h c h1
  · simp at h1

theorem textFold_nil {paras : List String}
    (h : ∀ para ∈ paras, (rustTrim para).isEmpty = true) :
    paras.foldl (fun acc para =>
      if (rustTrim para).isEmpty then acc
      else acc ++ [mkParagraph [mkTextNode (rustTrim para)]]) [] = [] := by
  induction paras with
  | nil => rfl
  | cons p rest ih =>
    rw [List.foldl_cons, if_pos (h p (by simp))]
    exact ih (fun para hpara => h para (by simp [hpara]))

/-- Claim C6: both converters always return a document whose top-level
block sequence is non-empty, and when the input yields no blocks - in
particular for whitespace-only plain text - the result is exactly one
paragraph with no inline content. -/
theorem claim_C6 :
    (∀ text : String, ∃ blocks : List Json,
       blocks ≠ [] ∧ text_to_tiptap_json text = mkDoc blocks) ∧
    (∀ events : List MdEvent, ∃ blocks : List Json,
       blocks ≠ [] ∧ markdown_to_tiptap_json events = mkDoc blocks) ∧
    (∀ text : String, (∀ c ∈ text.data, wsChar c) →
       text_to_tiptap_json text = mkDoc [emptyParagraph]) ∧
    (∀ events : List MdEvent, mdBlocks events = [] →
       markdown_to_tiptap_json events = mkDoc [emptyParagraph]) := by
  refine ⟨?_, ?_, ?_, ?_⟩
  · intro text
    by_cases hE : ((rustSplit text "\n\n").foldl (fun acc para =>
        if (rustTrim para).isEmpty then acc
        else acc ++ [mkParagraph [mkTextNode (rustTrim para)]]) []).isEmpty
    · refine ⟨[emptyParagraph], by simp, ?_⟩
      simp only [text_to_tiptap_json]
      rw [if_pos hE]
    · refine ⟨(rustSplit text "\n\n").foldl (fun acc para =>
        if (rustTrim para).isEmpty then acc
        else acc ++ [mkParagraph [mkTextNode (rustTrim para)]]) [], ?_, ?_⟩
      · intro hnil
        rw [hnil] at hE
        exact hE rfl
      · simp only [text_to_tiptap_json]
        rw [if_neg hE]
  · intro events
    by_cases hE : (mdBlocks events).isEmpty
    · refine ⟨[emptyParagraph], by simp, ?_⟩
      simp only [markdown_to_tiptap_json]
      rw [if_pos hE]
    · refine ⟨mdBlocks events, ?_, ?_⟩
      · intro hnil
        rw [hnil] at hE
        exact hE rfl
      · simp only [markdown_to_tiptap_json]
        rw [if_neg hE]
  · intro text hws
    have hall : ∀ para ∈ rustSplit text "\n\n", (rustTrim para).isEmpty = true := by
      intro para hp
      rw [rustSplit_all_ws hws para hp]
      rfl
    simp only [text_to_tiptap_json]
    rw [textFold_nil hall]
    rfl
  · intro events h0
    simp only [markdown_to_tiptap_json, h0]
    rfl

/-- Claim C6 witness: the whitespace-only case at a concrete input. -/
theorem claim_C6_witness :
    text_to_tiptap_json " \n \n\n " = mkDoc [emptyParagraph] :=
  claim_C6.2.2.1 " \n \n\n " (by decide)

/-! Claim C7: XHTML heading level clamping. -/

/-- Claim C7: for every heading node with a u64 level attribute L, the
XHTML renderer emits an hN element with N = clamp(L, 2, 6); in
particular level 1 renders as h2 and level 9 as h6 (the witness). -/
theorem claim_C7 (node : Json) (L : Nat)
    (ht : node.getStr "type" = some "heading")
    (hl : headingLevelAttr node = some L) :
    render_block node =
      "<h" ++ natDec (Nat.min 6 (Nat.max 2 L)) ++ alignStyle node ++ ">" ++
      (match node.getArr "content" with
       | some items => render_inline items
       | none => "") ++
      "</h" ++ natDec (Nat.min 6 (Nat.max 2 L)) ++ ">\n" := by
  rw [render_block]
  simp only [ht, hl, Option.getD_some]
  rw [if_neg (by decide), if_pos (by decide)]

/-- Claim C7 witness: levels 1 and 9 render as h2 and h6. -/
theorem claim_C7_witness :
    render_block (Json.obj [("type", Json.str "heading"),
      ("attrs", Json.obj [("level", Json.num 1)]),
      ("content", Json.arr [mkTextNode "T"])]) = "<h2>T</h2>\n" ∧
    render_block (Json.obj [("type", Json.str "heading"),
      ("attrs", Json.obj [("level", Json.num 9)]),
      ("content", Json.arr [mkTextNode "T"])]) = "<h6>T</h6>\n" := by
  constructor
  · rw [claim_C7 _ 1 (by decide) (by decide)]
    decide
  · rw [claim_C7 _ 9 (by decide) (by decide)]
    decide

/-! Claim C8: the RTF export filename. -/

/-- Claim C8 counterexample: with chapter order [1, 2] and the requested
id list [1, 1], the filename carries no range suffix although the
exported id set is a proper subset of the project's chapters. -/
theorem claim_C8_counterexample :
    export_rtf_filename "T" [1, 2] [1, 1] "2026-10-12" = "T_2026-10-12.rtf" ∧
    rtfIdsToExport [1, 2] [1, 1] = [1, 1] ∧
    ([1, 1] : List Nat).toFinset ⊂ ([1, 2] : List Nat).toFinset := by
  refine ⟨by decide, by decide, by decide⟩

/-- Claim C8 (amended): an empty request exports the full chapter order
with the plain filename; for a non-empty request the plain filename
appears exactly when the requested list has the same length as the
chapter order - the ids are not filtered against the project, so length
equality rather than set equality decides. -/
theorem claim_C8 (title : String) (chapterOrder chapter_ids : List Nat)
    (date : String) :
    (chapter_ids = [] →
      rtfIdsToExport chapterOrder chapter_ids = chapterOrder ∧
      export_rtf_filename title chapterOrder chapter_ids date =
        replaceChar ' ' "_" title ++ "_" ++ date ++ ".rtf") ∧
    (chapter_ids ≠ [] →
      (export_rtf_filename title chapterOrder chapter_ids date =
          replaceChar ' ' "_" title ++ "_" ++ date ++ ".rtf" ↔
        chapter_ids.length = chapterOrder.length)) := by
  constructor
  · intro h
    subst h
    refine ⟨rfl, ?_⟩
    simp only [export_rtf_filename, rtfIdsToExport]
    norm_num
  · intro hne
    have hids : rtfIdsToExport chapterOrder chapter_ids = chapter_ids := by
      rw [rtfIdsToExport, if_neg (by simpa using hne)]
    constructor
    · intro heq
      by_contra hlen
      simp only [export_rtf_filename, hids] at heq
      rw [if_neg hlen] at heq
      have hL := congrArg String.length heq
      simp only [String.length_append] at hL
      have h10 : ("_Chapters_" : String).length = 10 := rfl
      rw [h10] at hL
      omega
    · intro hlen
      simp only [export_rtf_filename, hids]
      rw [if_pos hlen]

/-- Claim C8 witness: the empty-request branch at a concrete project. -/
theorem claim_C8_witness :
    rtfIdsToExport [1, 2] [] = [1, 2] ∧
    export_rtf_filename "T" [1, 2] [] "D" =
      replaceChar ' ' "_" "T" ++ "_" ++ "D" ++ ".rtf" :=
  (claim_C8 "T" [1, 2] [] "D").1 rfl

/-! Claim C9: chapter writes are validated first. -/

/-- Claim C9: when the submitted content does not parse as JSON,
save_chapter returns an error and the file map is unchanged - in
particular the chapter file's previous contents or absence persist; the
write happens only on the validated path. -/
theorem claim_C9 (parse : String → Option Json) (fs : FS)
    (project_path : String) (chapter_id : Nat) (json_content : String)
    (h : parse json_content = none) :
    (save_chapter parse fs project_path chapter_id json_content).2 =
      Except.error "Invalid JSON content" ∧
    (save_chapter parse fs project_path chapter_id json_content).1.files =
      fs.files := by
  have hm : ∀ (f : FS) (p : String), (f.mkdirAll p).files = f.files := by
    intro f p
    rw [FS.mkdirAll]
    split
    · rfl
    · rfl
  unfold save_chapter
  rw [h]
  exact ⟨rfl, hm fs _⟩

/-- Claim C9 witness: a failing parse at a concrete state. -/
theorem claim_C9_witness :
    (save_chapter (fun _ => none) (FS.mk [] []) "p" 1 "not json").2 =
      Except.error "Invalid JSON content" ∧
    (save_chapter (fun _ => none) (FS.mk [] []) "p" 1 "not json").1.files = [] :=
  claim_C9 (fun _ => none) (FS.mk [] []) "p" 1 "not json" rfl

/-! Claim C1: EPUB mimetype entry and OPF manifest counts. -/

theorem dedupFold_mem (names : List String) :
    ∀ (acc : List String) (x : String),
      (x ∈ names.foldl (fun acc name =>
        if acc.contains name then acc else acc ++ [name]) acc) ↔
      x ∈ acc ∨ x ∈ names := by
  induction names with
  | nil =>
    intro acc x
    simp
  | cons n rest ih =>
    intro acc x
    rw [List.foldl_cons, ih]
    constructor
    · rintro (hx | hx)
      · by_cases hc : acc.contains n
        · rw [if_pos hc] at hx
          exact Or.inl hx
        · rw [if_neg hc] at hx
          rcases List.mem_append.mp hx with h1 | h1
          · exact Or.inl h1
          · simp at h1
            rw [h1]
            exact Or.inr (List.mem_cons_self n rest)
      · exact Or.inr (List.mem_cons_of_mem n hx)
    · rintro (hx | hx)
      · left
        by_cases hc : acc.contains n
        · rw [if_pos hc]
          exact hx
        · rw [if_neg hc]
          exact List.mem_append.mpr (Or.inl hx)
      · rcases List.mem_cons.mp hx with h1 | h1
        · left
          by_cases hc : acc.contains n
          · rw [if_pos hc]
            rw [h1]
            simpa using hc
          · rw [if_neg hc, h1]
            simp
        · exact Or.inr h1

theorem dedupFold_nodup (names : List String) :
    ∀ acc : List String, acc.Nodup →
      (names.foldl (fun acc name =>
        if acc.contains name then acc else acc ++ [name]) acc).Nodup := by
  induction names with
  | nil =>
    intro acc h
    exact h
  | cons n rest ih =>
    intro acc h
    rw [List.foldl_cons]
    apply ih
    by_cases hc : acc.contains n
    · rw [if_pos hc]
      exact h
    · rw [if_neg hc]
      rw [List.nodup_append]
      refine ⟨h, by simp, ?_⟩
      intro a ha hb
      simp at hb
      rw [hb] at ha
      exact (show n ∉ acc by simpa using hc) ha

theorem epubImagesFold_mem (chapters : List (String × Option Json)) :
    ∀ (acc : List String) (x : String),
      (x ∈ chapters.foldl (fun all ch =>
        (collect_image_names ch.2).foldl (fun acc name =>
          if acc.contains name then acc else acc ++ [name]) all) acc) ↔
      x ∈ acc ∨ ∃ ch ∈ chapters, x ∈ collect_image_names ch.2 := by
  induction chapters with
  | nil =>
    intro acc x
    simp
  | cons ch rest ih =>
    intro acc x
    rw [List.foldl_cons, ih, dedupFold_mem]
    constructor
    · rintro ((h1 | h1) | h1)
      · exact Or.inl h1
      · exact Or.inr ⟨ch, by simp, h1⟩
      · obtain ⟨ch2, hm, hx⟩ := h1
        exact Or.inr ⟨ch2, List.mem_cons_of_mem ch hm, hx⟩
    · rintro (h1 | ⟨ch2, hm, hx⟩)
      · exact Or.inl (Or.inl h1)
      · rcases List.mem_cons.mp hm with h2 | h2
        · rw [h2] at hx
          exact Or.inl (Or.inr hx)
        · exact Or.inr ⟨ch2, h2, hx⟩

theorem epubImagesFold_nodup (chapters : List (String × Option Json)) :
    ∀ acc : List String, acc.Nodup →
      (chapters.foldl (fun all ch =>
        (collect_image_names ch.2).foldl (fun acc name =>
          if acc.contains name then acc else acc ++ [name]) all) acc).Nodup := by
  induction chapters with
  | nil =>
    intro acc h
    exact h
  | cons ch rest ih =>
    intro acc h
    rw [List.foldl_cons]
    exact ih _ (dedupFold_nodup _ _ h)

theorem epubAllImageNames_nodup (chapters : List (String × Option Json)) :
    (epubAllImageNames chapters).Nodup :=
  epubImagesFold_nodup chapters [] List.nodup_nil

theorem epubAllImageNames_mem (chapters : List (String × Option Json)) (x : String) :
    x ∈ epubAllImageNames chapters ↔
      ∃ ch ∈ chapters, x ∈ collect_image_names ch.2 := by
  rw [epubAllImageNames, epubImagesFold_mem]
  simp

/-- Claim C1 (amended): for every non-empty export set the archive's
first entry is the uncompressed mimetype entry with exactly the bytes of
application/epub+zip, and the last entry is the OPF whose manifest holds
exactly one chapter item per exported chapter and exactly one image item
per distinct referenced image - whether or not that image exists in the
asset directory (only the archive's image file entries are restricted to
existing images). -/
theorem claim_C1 (env : EpubEnv) (chapter_ids : List Nat)
    (_h : epubIdsToExport env.chapterOrder chapter_ids ≠ []) :
    (export_epub env chapter_ids).2.head? =
      some (ZipEntry.mk "mimetype" true "application/epub+zip") ∧
    (export_epub env chapter_ids).2.getLast? =
      some (ZipEntry.mk "OEBPS/content.opf" false
        (build_opf env.title env.author env.uuid env.modified
          (epubChapters env chapter_ids).length
          (epubAllImageNames (epubChapters env chapter_ids)))) ∧
    (opfChapterItems (epubChapters env chapter_ids).length).length =
      (epubIdsToExport env.chapterOrder chapter_ids).length ∧
    (opfImageItems (epubAllImageNames (epubChapters env chapter_ids))).length =
      (epubAllImageNames (epubChapters env chapter_ids)).length ∧
    (epubAllImageNames (epubChapters env chapter_ids)).Nodup ∧
    (∀ x, x ∈ epubAllImageNames (epubChapters env chapter_ids) ↔
      ∃ ch ∈ epubChapters env chapter_ids, x ∈ collect_image_names ch.2) := by
  refine ⟨?_, ?_, ?_, ?_, epubAllImageNames_nodup _, fun x => epubAllImageNames_mem _ x⟩
  · simp only [export_epub]
    rfl
  · simp only [export_epub]
    rw [List.getLast?_append_of_ne_nil _ (by simp)]
    rfl
  · rw [opfChapterItems, List.length_map, List.length_range, epubChapters,
      List.length_map]
  · rw [opfImageItems, List.length_map]

/-- Environment of the claim C1 witness: one chapter, no images. -/
def envW : EpubEnv :=
  { title := "T", author := "A", chapterOrder := [1],
    chapterTitles := fun _ => none, chapterContent := fun _ => none,
    assetExists := fun _ => false, assetData := fun _ => "",
    uuid := "u", modified := "m", date := "d" }

/-- Claim C1 witness: the amended statement at a one-chapter project. -/
theorem claim_C1_witness :
    (export_epub envW []).2.head? =
      some (ZipEntry.mk "mimetype" true "application/epub+zip") ∧
    (export_epub envW []).2.getLast? =
      some (ZipEntry.mk "OEBPS/content.opf" false
        (build_opf envW.title envW.author envW.uuid envW.modified
          (epubChapters envW []).length
          (epubAllImageNames (epubChapters envW [])))) ∧
    (opfChapterItems (epubChapters envW []).length).length =
      (epubIdsToExport envW.chapterOrder []).length ∧
    (opfImageItems (epubAllImageNames (epubChapters envW []))).length =
      (epubAllImageNames (epubChapters envW [])).length ∧
    (epubAllImageNames (epubChapters envW [])).Nodup ∧
    (∀ x, x ∈ epubAllImageNames (epubChapters envW []) ↔
      ∃ ch ∈ epubChapters envW [], x ∈ collect_image_names ch.2) :=
  claim_C1 envW [] (by decide)

/-- Environment of the claim C1 counterexample: one chapter referencing
one image that does not exist in the asset directory. -/
def envC1 : EpubEnv :=
  { title := "T", author := "", chapterOrder := [1],
    chapterTitles := fun _ => none,
    chapterContent := fun _ => some (mkDoc [Json.obj
      [("type", Json.str "imageBleed"),
       ("attrs", Json.obj [("name", Json.str "missing.png"), ("alt", Json.str "")])]]),
    assetExists := fun _ => false, assetData := fun _ => "",
    uuid := "u", modified := "m", date := "d" }

/-- Claim C1 counterexample: the referenced image missing.png does not
exist in the asset directory (the existence filter keeps nothing), so by
the claim the manifest should hold no image item; yet the archive's OPF
is built over the unfiltered image list and holds exactly one image
item. -/
theorem claim_C1_counterexample :
    epubIdsToExport envC1.chapterOrder [] = [1] ∧
    epubAllImageNames (epubChapters envC1 []) = ["missing.png"] ∧
    (epubAllImageNames (epubChapters envC1 [])).filter envC1.assetExists = [] ∧
    (opfImageItems (epubAllImageNames (epubChapters envC1 []))).length = 1 ∧
    (export_epub envC1 []).2.getLast? =
      some (ZipEntry.mk "OEBPS/content.opf" false
        (build_opf "T" "" "u" "m" 1 ["missing.png"])) := by
  have himg : epubAllImageNames (epubChapters envC1 []) = ["missing.png"] := by
    simp [epubAllImageNames, epubChapters, epubIdsToExport, envC1,
      collect_image_names, collect_image_list, collect_image_names_from_node,
      mkDoc, Json.getArr, Json.getF, lookupField, Json.asArr, Json.getStr,
      Json.asStr]
    decide
  refine ⟨by decide, himg, ?_, ?_, ?_⟩
  · rw [himg]
    decide
  · rw [himg]
    decide
  · simp only [export_epub]
    rw [List.getLast?_append_of_ne_nil _ (by simp)]
    rw [himg]
    simp [envC1, epubChapters, epubIdsToExport]
